import Mathlib

/-!
Verification of the PDF24 OCR background worker (`worker.pyw` and the shared
queue engine it drives): pending-file resolution, the sequential
claim-then-parallel-dispatch batch protocol, the retry/quarantine policy,
lease release, settings fallback, and the scheduler loop's shutdown and
error handling.

The folder queue is embedded as lists of filenames per partition; filenames
are compared case-insensitively through a character-level lowercase map
(the source uses `name.lower()` comparisons).  Functions whose bodies live
in `ocr_processor.py` / `utils.py` (not part of the sources at hand) are
modelled from the specification and are marked as such in their doc
comments.
-/

namespace PDF24OCR

/-- A job is identified by its filename. -/
abbrev FileName := String

/-- Case-insensitive key of a filename: the character list lowered
characterwise.  Embeds Python's `name.lower()` used for folder-content
comparison. -/
def nameKey (f : FileName) : List Char := f.data.map Char.toLower

/-- Whether a filename carries the OCR-document extension (`.pdf`,
case-insensitively).  Embeds `f.lower().endswith('.pdf')`: the last four
lowered characters are `.pdf`. -/
def isOcrDoc (f : FileName) : Bool :=
  (nameKey f).reverse.take 4 == ['f', 'd', 'p', '.']

/-- The five queue partitions of the folder state store (section 3 of the
design): Input, Processing, Output, Error, Duplicate.  Each holds the list
of filenames currently in that folder. -/
structure FolderSet where
  input : List FileName
  processing : List FileName
  output : List FileName
  error : List FileName
  duplicate : List FileName
deriving DecidableEq

/-- Modelled from the spec: `get_pending_files` is defined in
`ocr_processor.py`, which is not among the sources; only its callers in
`worker.pyw` are.  Per the spec contract it returns the filenames present
in Input that are absent from Output, Duplicate and Error, matching names
case-insensitively and considering only files with an OCR-document
extension.  It reads folder contents and has no side effects. -/
def get_pending_files (input output duplicate error : List FileName) : List FileName :=
  let done := (output ++ duplicate ++ error).map nameKey
  input.filter (fun f => isOcrDoc f && !(done.contains (nameKey f)))

/-- The Pending-File Resolver as a state-threading run: it returns the
(unchanged) folder state together with the pending set, making its lack of
side effects explicit. -/
def resolverRun (st : FolderSet) : FolderSet × List FileName :=
  (st, get_pending_files st.input st.output st.duplicate st.error)

/-- Modelled from the spec: the claim phase of
`prepare_batch_for_processing` (in `ocr_processor.py`, not among the
sources; `worker.pyw` documents it as "Move files from Input to Processing
SEQUENTIALLY (no race condition)").  Each pending filename is moved, one at
a time, from Input into Processing; a file that has vanished from Input is
skipped for this cycle (claim-phase failure is not fatal to the batch). -/
def claimFiles : FolderSet → List FileName → FolderSet × List FileName
  | st, [] => (st, [])
  | st, f :: fs =>
      if st.input.contains f then
        let stMoved : FolderSet :=
          { st with input := st.input.erase f, processing := st.processing ++ [f] }
        let rest := claimFiles stMoved fs
        (rest.1, f :: rest.2)
      else
        claimFiles st fs

/-- Modelled from the spec: `prepare_batch_for_processing` resolves the
pending set and then sequentially claims each pending file into the
Processing folder, returning the claimed (ready) files. -/
def prepare_batch_for_processing (st : FolderSet) : FolderSet × List FileName :=
  claimFiles st (get_pending_files st.input st.output st.duplicate st.error)

/-- Outcome of the k-th OCR tool invocation for one job, supplied by the
environment: `true` means exit status 0 with a verified output artifact. -/
abbrev OcrOracle := Nat → Bool

/-- Modelled from the spec: the in-call retry loop of `process_single_pdf`
(in `ocr_processor.py`, not among the sources).  With `retriesLeft`
remaining retries the tool is invoked once; on failure it is retried, so a
budget of `maxRetries` yields at most `maxRetries + 1` invocations.
Returns (total invocations performed, final success flag). -/
def runAttempts (ocr : OcrOracle) : Nat → Nat → Nat × Bool
  | start, 0 => (1, ocr start)
  | start, retriesLeft + 1 =>
      if ocr start then (1, true)
      else
        let rest := runAttempts ocr (start + 1) retriesLeft
        (rest.1 + 1, rest.2)

/-- Per-job outcome reported to the batch aggregator (`result.success`,
`result.file_name`, `result.error` in `worker.pyw`), extended with the
number of tool invocations performed. -/
structure JobResult where
  file_name : FileName
  success : Bool
  attempts : Nat
  error : Option String
deriving DecidableEq

/-- Modelled from the spec: `process_single_pdf` (in `ocr_processor.py`,
not among the sources) for a file already claimed into Processing.  It
invokes the tool with retries; on final success the output artifact is
placed atomically in Output and the Processing copy removed; on exhausted
retries the file is moved to the Error folder. -/
def process_single_pdf (ocr : OcrOracle) (maxRetries : Nat) (st : FolderSet)
    (f : FileName) : FolderSet × JobResult :=
  let attempt := runAttempts ocr 0 maxRetries
  if attempt.2 then
    ({ st with processing := st.processing.erase f, output := st.output ++ [f] },
     ⟨f, true, attempt.1, none⟩)
  else
    ({ st with processing := st.processing.erase f, error := st.error ++ [f] },
     ⟨f, false, attempt.1, some "OCR failed"⟩)

/-- Observable effects of a batch, in program order: claim-phase moves,
OCR tool invocations, and lease operations.  `process_batch` itself
performs no lease operations (those sit in `main`); the constructors exist
so that absence of lock traffic is expressible. -/
inductive Event where
  | claimMove (f : FileName)
  | ocrCall (f : FileName)
  | lockAcquire (name : String)
  | lockRelease (name : String)
deriving DecidableEq

/-- Aggregate of the dispatch phase: final folder state, success and
failure counts, and the OCR invocation events. -/
structure DispatchOut where
  state : FolderSet
  succ : Nat
  fail : Nat
  events : List Event
deriving DecidableEq

/-- The dispatch phase of `process_batch` in `worker.pyw`: one
`process_single_pdf` call per ready file, results aggregated as they
complete.  Counts are order-insensitive sums, so the sequential fold is an
adequate embedding of the bounded thread pool. -/
def dispatchAll (ocr : FileName → OcrOracle) (maxRetries : Nat) :
    FolderSet → List FileName → DispatchOut
  | st, [] => ⟨st, 0, 0, []⟩
  | st, f :: fs =>
      let one := process_single_pdf (ocr f) maxRetries st f
      let rest := dispatchAll ocr maxRetries one.1 fs
      ⟨rest.state,
       (if one.2.success then 1 else 0) + rest.succ,
       (if one.2.success then 0 else 1) + rest.fail,
       List.replicate one.2.attempts (Event.ocrCall f) ++ rest.events⟩

/-- Result of one batch: final state, the `(success, fail)` counts returned
to `main`, the claimed files, and the event trace. -/
structure BatchRun where
  state : FolderSet
  successCount : Nat
  failCount : Nat
  claimed : List FileName
  events : List Event
deriving DecidableEq

/-- `process_batch` from `worker.pyw` (lines 270-317 of the second worker
revision): step 1 claims pending files from Input into Processing
sequentially; if nothing was claimed it returns `(0, 0)` immediately;
step 2 dispatches the ready files to a pool of `workers` threads.  The
`workers` count bounds parallelism only; it does not influence which files
are claimed or the aggregated counts. -/
def process_batch (ocr : FileName → OcrOracle) (workers maxRetries : Nat)
    (st : FolderSet) : BatchRun :=
  let claim := prepare_batch_for_processing st
  if claim.2.isEmpty then
    ⟨claim.1, 0, 0, [], []⟩
  else
    let d := dispatchAll ocr maxRetries claim.1 claim.2
    ⟨d.state, d.succ, d.fail, claim.2, claim.2.map Event.claimMove ++ d.events⟩

/-- The dispatch phase of the shared batch function used by the first
worker revision, which additionally honours a cooperative stop request
between file-level operations (spec section 5: a shutdown request is
observed between file-level operations, never by killing an in-flight tool
call). -/
def dispatchAllStop (ocr : FileName → OcrOracle) (maxRetries : Nat)
    (shouldStop : Nat → Bool) : Nat → FolderSet → List FileName → DispatchOut
  | _, st, [] => ⟨st, 0, 0, []⟩
  | idx, st, f :: fs =>
      if shouldStop idx then ⟨st, 0, 0, []⟩
      else
        let one := process_single_pdf (ocr f) maxRetries st f
        let rest := dispatchAllStop ocr maxRetries shouldStop (idx + 1) one.1 fs
        ⟨rest.state,
         (if one.2.success then 1 else 0) + rest.succ,
         (if one.2.success then 0 else 1) + rest.fail,
         List.replicate one.2.attempts (Event.ocrCall f) ++ rest.events⟩

/-- Modelled from the spec: the shared `process_batch` of
`ocr_processor.py` (not among the sources), called by `run_batch` in the
first worker revision.  Same two-phase protocol, with the cooperative
`should_stop` check between file-level operations. -/
def process_batch_shared (ocr : FileName → OcrOracle) (workers maxRetries : Nat)
    (shouldStop : Nat → Bool) (st : FolderSet) : BatchRun :=
  let claim := prepare_batch_for_processing st
  if claim.2.isEmpty then
    ⟨claim.1, 0, 0, [], []⟩
  else
    let d := dispatchAllStop ocr maxRetries shouldStop 0 claim.1 claim.2
    ⟨d.state, d.succ, d.fail, claim.2, claim.2.map Event.claimMove ++ d.events⟩

/-- Default worker count from `config.py` (value documented in the
repository README). -/
def DEFAULT_WORKERS : Nat := 10

/-- Default OCR language tag from `config.py` (value documented in the
repository README). -/
def OCR_LANGUAGES : String := "eng+kan"

/-- The settings record consumed each scheduling cycle. -/
structure Settings where
  auto_start : Bool
  workers : Nat
  language : String
  deskew : Bool
deriving DecidableEq

/-- The `defaults` dictionary of `load_settings` in `worker.pyw`:
`auto_start` must be explicitly enabled for the background worker to
process. -/
def defaultSettings : Settings :=
  { auto_start := false
    workers := DEFAULT_WORKERS
    language := OCR_LANGUAGES
    deskew := true }

/-- The fields of a successfully parsed settings file; `none` means the
field is missing from the parsed JSON object. -/
structure SettingsData where
  auto_start : Option Bool
  workers : Option Nat
  language : Option String
  deskew : Option Bool
deriving DecidableEq

/-- The three observable shapes of the settings file `auto_start.json`:
absent, present but unparseable (or not an object), or parsed with some
subset of the known fields. -/
inductive SettingsFile where
  | absent
  | malformed (err : String)
  | parsed (data : SettingsData)
deriving DecidableEq

/-- `load_settings` from `worker.pyw` (lines 80-95): absent file yields the
defaults; any parse error is caught, logged and yields the defaults; a
parsed object is merged over the defaults (`{**defaults, **data}`), so
fields present in the file win and missing fields fall back.  Every path
returns a full record; the function never raises. -/
def load_settings : SettingsFile → Settings
  | .absent => defaultSettings
  | .malformed _ => defaultSettings
  | .parsed d =>
      { auto_start := d.auto_start.getD defaultSettings.auto_start
        workers := d.workers.getD defaultSettings.workers
        language := d.language.getD defaultSettings.language
        deskew := d.deskew.getD defaultSettings.deskew }

/-- The two file-backed leases visible to one worker process: whether the
interactive front-end's lease is held, and whether the background worker's
lease is held. -/
structure LockWorld where
  appLocked : Bool
  workerLocked : Bool
deriving DecidableEq

/-- The module-level mutable state of `worker.pyw`: the shutdown flag and
the shared on-disk resources. -/
structure WorkerGlobals where
  shutdownRequested : Bool
  locks : LockWorld
  folders : FolderSet
deriving DecidableEq

/-- `signal_handler` from `worker.pyw` (lines 53-57): its only effect is to
set the global `_shutdown_requested` flag (and log); it touches neither the
locks nor the folders and interrupts nothing. -/
def signal_handler (g : WorkerGlobals) : WorkerGlobals :=
  { g with shutdownRequested := true }

/-- The exception classes the scheduler loop distinguishes: the dedicated
`except KeyboardInterrupt` arm and the generic `except Exception` arm. -/
inductive PyExc where
  | keyboardInterrupt
  | exception (msg : String)
deriving DecidableEq

/-- The quick work check of `main`: any `.pdf` (case-insensitively) in the
Input or Processing folder. -/
def hasWorkCheck (st : FolderSet) : Bool :=
  st.input.any isOcrDoc || st.processing.any isOcrDoc

/-- Name of the background worker's lease. -/
def WORKER_LOCK_NAME : String := "background_worker"

/-- Observable outcome of one scheduler-loop iteration: lease state and
folder state afterwards, whether a batch ran, its result if it returned,
and the emitted events. -/
structure CycleResult where
  locks : LockWorld
  folders : FolderSet
  ranBatch : Bool
  batch : Option BatchRun
  events : List Event
deriving DecidableEq

/-- One iteration of the `main` loop body of `worker.pyw` (first revision,
lines 144-190), up to but not including the surrounding exception
handlers: reload settings; skip unless `auto_start`; skip when no work;
defer to the interactive front-end's lease; acquire the worker lease
non-blockingly; run the batch inside try/finally so the lease is released
on return and on exception alike.  `batchExc` is the environment's choice
of an exception raised inside the protected region (`none`: the batch
returns normally); the returned `Option PyExc` is the exception that
propagates out to the loop-level handlers. -/
def mainCycle (file : SettingsFile) (ocr : FileName → OcrOracle)
    (shouldStop : Nat → Bool) (batchExc : Option PyExc)
    (locks : LockWorld) (st : FolderSet) : CycleResult × Option PyExc :=
  let settings := load_settings file
  if !settings.auto_start then
    (⟨locks, st, false, none, []⟩, none)
  else if !hasWorkCheck st then
    (⟨locks, st, false, none, []⟩, none)
  else if locks.appLocked then
    (⟨locks, st, false, none, []⟩, none)
  else if locks.workerLocked then
    (⟨locks, st, false, none, []⟩, none)
  else
    let acquired : LockWorld := { locks with workerLocked := true }
    let released : LockWorld := { acquired with workerLocked := false }
    match batchExc with
    | some e =>
        (⟨released, st, true, none,
          [Event.lockAcquire WORKER_LOCK_NAME, Event.lockRelease WORKER_LOCK_NAME]⟩,
         some e)
    | none =>
        let b := process_batch_shared ocr settings.workers 2 shouldStop st
        (⟨released, b.state, true, some b,
          Event.lockAcquire WORKER_LOCK_NAME ::
            (b.events ++ [Event.lockRelease WORKER_LOCK_NAME])⟩,
         none)

/-- Per-iteration environment of the scheduler loop: settings file
contents, tool behaviour, cooperative-stop samples seen by the batch, and
whether an exception is raised inside this iteration's protected region. -/
structure LoopEnv where
  file : SettingsFile
  ocr : FileName → OcrOracle
  stopSched : Nat → Bool
  batchExc : Option PyExc

/-- Value of the `_shutdown_requested` flag observed at the top of
iteration `k`, given the schedule `sig` of signal arrivals (`sig k` means
a shutdown signal arrives during iteration `k`). -/
def flagAt (sig : Nat → Bool) : Nat → Bool
  | 0 => false
  | k + 1 => flagAt sig k || sig k

/-- The `while not _shutdown_requested` scheduler loop of `worker.pyw`
(first revision), run for `fuel` iterations at most: if the flag is set the
loop exits without starting anything; otherwise the iteration body runs to
completion, a `KeyboardInterrupt` breaks the loop, any other caught
exception is logged and the loop sleeps and continues.  The trace records
each completed iteration with its index, result and propagated
exception. -/
def loopFrom (env : Nat → LoopEnv) (sig : Nat → Bool) :
    Bool → Nat → LockWorld → FolderSet → Nat →
      List (Nat × CycleResult × Option PyExc)
  | _, _, _, _, 0 => []
  | flag, k, locks, st, fuel + 1 =>
      if flag then []
      else
        let e := env k
        let step := mainCycle e.file e.ocr e.stopSched e.batchExc locks st
        if step.2 = some PyExc.keyboardInterrupt then [(k, step.1, step.2)]
        else
          (k, step.1, step.2) ::
            loopFrom env sig (flag || sig k) (k + 1) step.1.locks step.1.folders fuel

/-- A quiet loop environment: settings file absent (so `auto_start` is off)
and no exceptions. -/
def idleEnv : LoopEnv :=
  ⟨SettingsFile.absent, fun _ _ => false, fun _ => false, none⟩

/-- A signal schedule in which the shutdown signal arrives during
iteration 0. -/
def sigAt0 : Nat → Bool := fun k => k == 0

/-- A folder state with a single pending document in Input. -/
def oneFileState : FolderSet := ⟨["a.pdf"], [], [], [], []⟩

/-- Settings file enabling `auto_start` and leaving all other fields to the
defaults. -/
def autoOnFile : SettingsFile := SettingsFile.parsed ⟨some true, none, none, none⟩

/-- An environment whose iteration raises `KeyboardInterrupt` inside the
batch, with processing enabled and work available. -/
def kiEnv : LoopEnv :=
  ⟨autoOnFile, fun _ _ => false, fun _ => false, some PyExc.keyboardInterrupt⟩

/-- An environment whose iteration raises a generic exception inside the
batch, with processing enabled and work available. -/
def excEnv : LoopEnv :=
  ⟨autoOnFile, fun _ _ => false, fun _ => false, some (PyExc.exception "boom")⟩

/-- A folder state with all five partitions empty. -/
def emptyFolders : FolderSet := ⟨[], [], [], [], []⟩

/-- Membership in the resolver's output: present in Input, OCR-document
extension, and no case-insensitive name match in Output, Duplicate or
Error. -/
lemma mem_get_pending_files {i o d e : List FileName} {f : FileName} :
    f ∈ get_pending_files i o d e ↔
      f ∈ i ∧ isOcrDoc f = true ∧
        ∀ g, (g ∈ o ∨ g ∈ d ∨ g ∈ e) → nameKey g ≠ nameKey f := by
  simp only [get_pending_files, List.mem_filter, Bool.and_eq_true, Bool.not_eq_true',
    ← Bool.not_eq_true, List.elem_iff, List.contains, List.mem_map, List.mem_append]
  constructor
  · rintro ⟨hi, hdoc, hkey⟩
    refine ⟨hi, hdoc, ?_⟩
    intro g hg hEq
    exact hkey ⟨g, by tauto, hEq⟩
  · rintro ⟨hi, hdoc, hkey⟩
    refine ⟨hi, hdoc, ?_⟩
    rintro ⟨g, hg, hEq⟩
    exact hkey g (by tauto) hEq

/-- The claim phase never touches the terminal partitions. -/
lemma claimFiles_untouched (fs : List FileName) :
    ∀ st : FolderSet,
      (claimFiles st fs).1.output = st.output
      ∧ (claimFiles st fs).1.error = st.error
      ∧ (claimFiles st fs).1.duplicate = st.duplicate := by
  induction fs with
  | nil => intro st; exact ⟨rfl, rfl, rfl⟩
  | cons f fs ih =>
      intro st
      by_cases hc : st.input.contains f
      · simpa only [claimFiles, hc, if_true] using ih _
      · simpa only [claimFiles, hc, if_false] using ih st

/-- The claim phase only removes files from Input. -/
lemma claimFiles_input_sub (fs : List FileName) :
    ∀ st : FolderSet, (claimFiles st fs).1.input ⊆ st.input := by
  induction fs with
  | nil => intro st; exact fun a ha => ha
  | cons f fs ih =>
      intro st
      by_cases hc : st.input.contains f
      · simp only [claimFiles, hc, if_true]
        exact fun a ha => List.erase_subset f st.input (ih _ ha)
      · simpa only [claimFiles, hc, if_false] using ih st

/-- Core claim-phase lemma: starting from a duplicate-free Input listing
and a duplicate-free list of files all present in Input, the sequential
claim phase claims exactly those files, appends them (in order) to
Processing, and removes each of them from Input. -/
lemma claimFiles_moves (fs : List FileName) :
    ∀ st : FolderSet, st.input.Nodup → fs.Nodup → (∀ f ∈ fs, f ∈ st.input) →
      (claimFiles st fs).2 = fs
      ∧ (claimFiles st fs).1.processing = st.processing ++ fs
      ∧ ∀ f ∈ fs, f ∉ (claimFiles st fs).1.input := by
  induction fs with
  | nil =>
      intro st _ _ _
      exact ⟨rfl, by simp [claimFiles], by simp⟩
  | cons f fs ih =>
      intro st hin hnd hsub
      have hf : f ∈ st.input := hsub f (List.mem_cons_self f fs)
      have hc : st.input.contains f = true := by
        simpa [List.contains, List.elem_iff] using hf
      have hfnotfs : f ∉ fs := (List.nodup_cons.mp hnd).1
      have hnd' : fs.Nodup := (List.nodup_cons.mp hnd).2
      have hin' : (st.input.erase f).Nodup := hin.erase f
      have hsub' : ∀ g ∈ fs, g ∈ st.input.erase f := by
        intro g hg
        have hne : g ≠ f := fun hEq => hfnotfs (hEq ▸ hg)
        exact (List.mem_erase_of_ne hne).mpr (hsub g (List.mem_cons_of_mem f hg))
      obtain ⟨h1, h2, h3⟩ :=
        ih { st with input := st.input.erase f, processing := st.processing ++ [f] }
          hin' hnd' hsub'
      refine ⟨?_, ?_, ?_⟩
      · simp only [claimFiles, hc, if_true]
        exact congrArg (f :: ·) h1
      · simp only [claimFiles, hc, if_true]
        rw [h2]
        simp
      · intro g hg
        rcases List.mem_cons.mp hg with hEq | hgfs
        · subst hEq
          simp only [claimFiles, hc, if_true]
          intro hmem
          exact hin.not_mem_erase (claimFiles_input_sub fs _ hmem)
        · simpa only [claimFiles, hc, if_true] using h3 g hgfs

/-- The pending set is a sublist of Input consisting of distinct names
whenever the Input listing has distinct names. -/
lemma pending_nodup_sub (st : FolderSet) (hnd : st.input.Nodup) :
    (get_pending_files st.input st.output st.duplicate st.error).Nodup
    ∧ ∀ f ∈ get_pending_files st.input st.output st.duplicate st.error,
        f ∈ st.input := by
  constructor
  · exact hnd.filter _
  · intro f hf
    exact (List.mem_filter.mp hf).1

/-- With zero retries budget exhausted on every invocation, the retry loop
performs exactly one invocation per remaining retry plus the initial one. -/
lemma runAttempts_all_fail (ocr : OcrOracle) (h : ∀ k, ocr k = false) :
    ∀ r s : Nat, runAttempts ocr s r = (r + 1, false) := by
  intro r
  induction r with
  | zero => intro s; simp [runAttempts, h]
  | succ n ihr => intro s; simp [runAttempts, h, ihr]

/-- C3: for every configuration of Input, Output, Duplicate and Error
contents, `get_pending_files` returns exactly the filenames present in
Input that are absent (case-insensitively) from Output, Duplicate and
Error, restricted to OCR-document extensions; in particular with
Input = `a.pdf, b.pdf` and Output = `b.pdf` it returns exactly `a.pdf`. -/
theorem get_pending_files_contract :
    (∀ (i o d e : List FileName) (f : FileName),
        f ∈ get_pending_files i o d e ↔
          f ∈ i ∧ isOcrDoc f = true ∧
            ∀ g, (g ∈ o ∨ g ∈ d ∨ g ∈ e) → nameKey g ≠ nameKey f)
    ∧ get_pending_files ["a.pdf", "b.pdf"] ["b.pdf"] [] [] = ["a.pdf"] := by
  exact ⟨fun i o d e f => mem_get_pending_files, by decide⟩

/-- C3 witness: the contract evaluated at the spec's concrete scenario. -/
theorem get_pending_files_contract_witness :
    get_pending_files ["a.pdf", "b.pdf"] ["b.pdf"] [] [] = ["a.pdf"] :=
  get_pending_files_contract.2

/-- C8: the Pending-File Resolver is idempotent and deterministic: it
leaves the folder state unchanged, running it twice yields an identical
pending set, and its output depends only on the folder contents. -/
theorem resolver_idempotent_deterministic :
    ∀ st : FolderSet,
      (resolverRun st).1 = st
      ∧ (resolverRun (resolverRun st).1).2 = (resolverRun st).2
      ∧ ∀ st' : FolderSet,
          st.input = st'.input → st.output = st'.output →
          st.duplicate = st'.duplicate → st.error = st'.error →
          (resolverRun st).2 = (resolverRun st').2 := by
  intro st
  refine ⟨rfl, rfl, ?_⟩
  intro st' h1 h2 h3 h4
  simp [resolverRun, h1, h2, h3, h4]

/-- C8 witness: a second resolver run on a concrete state reproduces the
first run's pending set. -/
theorem resolver_idempotent_deterministic_witness :
    (resolverRun (resolverRun oneFileState).1).2 = (resolverRun oneFileState).2 :=
  (resolver_idempotent_deterministic oneFileState).2.1

/-- C9: `load_settings` is total on every settings-file shape: an absent
file and malformed data both yield the full default record, fields missing
from a parsed record fall back to their defaults, and fields present in
the file win over the defaults. -/
theorem load_settings_fallback :
    load_settings SettingsFile.absent = defaultSettings
    ∧ (∀ e, load_settings (SettingsFile.malformed e) = defaultSettings)
    ∧ (∀ d, d.auto_start = none →
        (load_settings (SettingsFile.parsed d)).auto_start = defaultSettings.auto_start)
    ∧ (∀ d, d.workers = none →
        (load_settings (SettingsFile.parsed d)).workers = defaultSettings.workers)
    ∧ (∀ d, d.language = none →
        (load_settings (SettingsFile.parsed d)).language = defaultSettings.language)
    ∧ (∀ d, d.deskew = none →
        (load_settings (SettingsFile.parsed d)).deskew = defaultSettings.deskew)
    ∧ (∀ d b, d.auto_start = some b →
        (load_settings (SettingsFile.parsed d)).auto_start = b)
    ∧ (∀ d w, d.workers = some w →
        (load_settings (SettingsFile.parsed d)).workers = w) := by
  refine ⟨rfl, fun e => rfl, ?_, ?_, ?_, ?_, ?_, ?_⟩
  · intro d h; simp [load_settings, h]
  · intro d h; simp [load_settings, h]
  · intro d h; simp [load_settings, h]
  · intro d h; simp [load_settings, h]
  · intro d b h; simp [load_settings, h]
  · intro d w h; simp [load_settings, h]

/-- C9 witness: a parsed record missing `auto_start` and `workers` falls
back to the defaults for both fields. -/
theorem load_settings_fallback_witness :
    (load_settings (SettingsFile.parsed ⟨none, none, some "eng", some false⟩)).auto_start
        = defaultSettings.auto_start
    ∧ (load_settings (SettingsFile.parsed ⟨none, none, some "eng", some false⟩)).workers
        = defaultSettings.workers :=
  ⟨load_settings_fallback.2.2.1 ⟨none, none, some "eng", some false⟩ rfl,
   load_settings_fallback.2.2.2.1 ⟨none, none, some "eng", some false⟩ rfl⟩

/-- C10: with the settings file absent or lacking `auto_start`,
`load_settings` yields `auto_start = false`, and a scheduler-loop
iteration under `auto_start = false` acquires no lock, runs no batch,
emits no events and leaves all state unchanged. -/
theorem auto_start_gates_cycle :
    (load_settings SettingsFile.absent).auto_start = false
    ∧ (∀ d, d.auto_start = none →
        (load_settings (SettingsFile.parsed d)).auto_start = false)
    ∧ ∀ (file : SettingsFile) (ocr : FileName → OcrOracle) (stop : Nat → Bool)
        (batchExc : Option PyExc) (locks : LockWorld) (st : FolderSet),
        (load_settings file).auto_start = false →
        mainCycle file ocr stop batchExc locks st = (⟨locks, st, false, none, []⟩, none) := by
  refine ⟨rfl, ?_, ?_⟩
  · intro d h; simp [load_settings, h, defaultSettings]
  · intro file ocr stop batchExc locks st h
    simp [mainCycle, h]

/-- C10 witness: an iteration with the settings file absent performs no
lock acquisition and no batch processing. -/
theorem auto_start_gates_cycle_witness :
    mainCycle SettingsFile.absent (fun _ _ => false) (fun _ => false) none
        ⟨false, false⟩ oneFileState
      = (⟨⟨false, false⟩, oneFileState, false, none, []⟩, none) :=
  auto_start_gates_cycle.2.2 SettingsFile.absent (fun _ _ => false) (fun _ => false)
    none ⟨false, false⟩ oneFileState rfl

/-- C4: a batch whose claim phase claims zero files returns immediately
with the result (0, 0), an unchanged folder state and an empty event
trace — in particular it performs no lock acquisition. -/
theorem empty_claim_batch :
    ∀ st : FolderSet,
      get_pending_files st.input st.output st.duplicate st.error = [] →
      ∀ (ocr : FileName → OcrOracle) (workers maxRetries : Nat),
        process_batch ocr workers maxRetries st = ⟨st, 0, 0, [], []⟩
        ∧ ∀ n, Event.lockAcquire n ∉ (process_batch ocr workers maxRetries st).events := by
  intro st h ocr w mr
  have hprep : prepare_batch_for_processing st = (st, []) := by
    simp [prepare_batch_for_processing, h, claimFiles]
  refine ⟨?_, ?_⟩
  · simp [process_batch, hprep]
  · intro n
    simp [process_batch, hprep]

/-- C4 witness: on an all-empty folder state the batch returns (0, 0) with
no events. -/
theorem empty_claim_batch_witness :
    process_batch (fun _ _ => false) 4 2 emptyFolders = ⟨emptyFolders, 0, 0, [], []⟩ :=
  (empty_claim_batch emptyFolders rfl (fun _ _ => false) 4 2).1

/-- C2: a job whose OCR invocation always fails is, with the configured
maximum of 2 retries, attempted exactly 2 + 1 = 3 times, then moved to the
Error folder, and Error-folder membership excludes it from every pending
set the resolver produces afterwards. -/
theorem retry_bound (ocr : OcrOracle) (h : ∀ k, ocr k = false)
    (st : FolderSet) (f : FileName) :
    (process_single_pdf ocr 2 st f).2.attempts = 2 + 1
    ∧ (process_single_pdf ocr 2 st f).2.attempts = 3
    ∧ (process_single_pdf ocr 2 st f).2.success = false
    ∧ (process_single_pdf ocr 2 st f).1.error = st.error ++ [f]
    ∧ f ∈ (process_single_pdf ocr 2 st f).1.error
    ∧ ∀ i o d : List FileName,
        f ∉ get_pending_files i o d (process_single_pdf ocr 2 st f).1.error := by
  have ha := runAttempts_all_fail ocr h 2 0
  have herr : (process_single_pdf ocr 2 st f).1.error = st.error ++ [f] := by
    simp [process_single_pdf, ha]
  refine ⟨by simp [process_single_pdf, ha], by simp [process_single_pdf, ha],
    by simp [process_single_pdf, ha], herr, by rw [herr]; simp, ?_⟩
  intro i o d hmem
  obtain ⟨-, -, hkey⟩ := mem_get_pending_files.mp hmem
  exact hkey f (Or.inr (Or.inr (by rw [herr]; simp))) rfl

/-- C2 witness: a concrete always-failing job is attempted three times and
lands in Error. -/
theorem retry_bound_witness :
    (process_single_pdf (fun _ => false) 2 oneFileState "a.pdf").2.attempts = 3
    ∧ "a.pdf" ∈ (process_single_pdf (fun _ => false) 2 oneFileState "a.pdf").1.error :=
  ⟨(retry_bound (fun _ => false) (fun _ => rfl) oneFileState "a.pdf").2.1,
   (retry_bound (fun _ => false) (fun _ => rfl) oneFileState "a.pdf").2.2.2.2.1⟩

/-- C1: the claim phase claims exactly the pending files, moving each one
from Input into Processing exactly once per cycle, and in `process_batch`
the claimed set and the position of the claim moves ahead of all dispatch
events are independent of the configured worker-pool size. -/
theorem claim_phase_exactly_once (st : FolderSet) (hnd : st.input.Nodup) :
    (prepare_batch_for_processing st).2
        = get_pending_files st.input st.output st.duplicate st.error
    ∧ (∀ f ∈ get_pending_files st.input st.output st.duplicate st.error,
        (prepare_batch_for_processing st).1.processing.count f
          = st.processing.count f + 1)
    ∧ (∀ f ∈ get_pending_files st.input st.output st.duplicate st.error,
        f ∉ (prepare_batch_for_processing st).1.input)
    ∧ ∀ (ocr : FileName → OcrOracle) (w₁ w₂ maxRetries : Nat),
        (process_batch ocr w₁ maxRetries st).claimed
            = (process_batch ocr w₂ maxRetries st).claimed
        ∧ (process_batch ocr w₁ maxRetries st).claimed
            = get_pending_files st.input st.output st.duplicate st.error
        ∧ (process_batch ocr w₁ maxRetries st).events
            = (get_pending_files st.input st.output st.duplicate st.error).map
                Event.claimMove
              ++ (dispatchAll ocr maxRetries (prepare_batch_for_processing st).1
                    (get_pending_files st.input st.output st.duplicate st.error)).events := by
  obtain ⟨hpnd, hpsub⟩ := pending_nodup_sub st hnd
  obtain ⟨h1, h2, h3⟩ :=
    claimFiles_moves (get_pending_files st.input st.output st.duplicate st.error)
      st hnd hpnd hpsub
  have hprep1 : (prepare_batch_for_processing st).2
      = get_pending_files st.input st.output st.duplicate st.error := h1
  refine ⟨hprep1, ?_, h3, ?_⟩
  · intro f hf
    have : (prepare_batch_for_processing st).1.processing
        = st.processing ++ get_pending_files st.input st.output st.duplicate st.error :=
      h2
    rw [this, List.count_append, List.count_eq_one_of_mem hpnd hf]
  · intro ocr w₁ w₂ mr
    by_cases hE : (get_pending_files st.input st.output st.duplicate st.error).isEmpty
    · have hnil := List.isEmpty_iff.mp hE
      refine ⟨?_, ?_, ?_⟩ <;>
        simp [process_batch, hprep1, hnil, dispatchAll]
    · have hne : get_pending_files st.input st.output st.duplicate st.error ≠ [] := by
        intro hc
        exact hE (by simp [hc])
      refine ⟨?_, ?_, ?_⟩ <;>
        simp [process_batch, hprep1, hne]

/-- C1 witness: on a one-file Input the claim phase claims that file into
Processing exactly once. -/
theorem claim_phase_exactly_once_witness :
    (prepare_batch_for_processing oneFileState).2
      = get_pending_files oneFileState.input oneFileState.output
          oneFileState.duplicate oneFileState.error :=
  (claim_phase_exactly_once oneFileState (by decide)).1

/-- C5: whenever a scheduler-loop iteration acquires the worker lease, the
lease is released on every exit path — batch returning (with any counts)
or raising an exception — so the lease is not held afterwards. -/
theorem lease_released_every_exit (file : SettingsFile) (locks : LockWorld)
    (st : FolderSet)
    (hauto : (load_settings file).auto_start = true)
    (hwork : hasWorkCheck st = true)
    (happ : locks.appLocked = false)
    (hworker : locks.workerLocked = false) :
    ∀ (ocr : FileName → OcrOracle) (stop : Nat → Bool) (batchExc : Option PyExc),
      (mainCycle file ocr stop batchExc locks st).1.locks.workerLocked = false
      ∧ (mainCycle file ocr stop batchExc locks st).1.ranBatch = true
      ∧ Event.lockRelease WORKER_LOCK_NAME
          ∈ (mainCycle file ocr stop batchExc locks st).1.events := by
  intro ocr stop batchExc
  rcases batchExc with _ | e <;>
    simp [mainCycle, hauto, hwork, happ, hworker]

/-- C5 witness: a concrete acquiring iteration whose batch raises still
ends with the worker lease free. -/
theorem lease_released_every_exit_witness :
    (mainCycle autoOnFile (fun _ _ => false) (fun _ => false)
        (some (PyExc.exception "boom")) ⟨false, false⟩ oneFileState).1.locks.workerLocked
      = false :=
  (lease_released_every_exit autoOnFile ⟨false, false⟩ oneFileState
    (by decide) (by decide) rfl rfl (fun _ _ => false) (fun _ => false)
    (some (PyExc.exception "boom"))).1

/-- The shutdown flag is monotone: once set it stays set. -/
lemma flagAt_mono (sig : Nat → Bool) :
    ∀ k j, k ≤ j → flagAt sig k = true → flagAt sig j = true := by
  intro k j hkj
  induction j, hkj using Nat.le_induction with
  | base => exact id
  | succ n hn ihn => intro h; simp [flagAt, ihn h]

/-- Every iteration recorded by the loop started while the shutdown flag
was still unset. -/
lemma loopFrom_mem_flag (env : Nat → LoopEnv) (sig : Nat → Bool) :
    ∀ (fuel : Nat) (flag : Bool) (k : Nat) (locks : LockWorld) (st : FolderSet)
      (j : Nat) (r : CycleResult) (e : Option PyExc),
      flag = flagAt sig k →
      (j, r, e) ∈ loopFrom env sig flag k locks st fuel →
      flagAt sig j = false := by
  intro fuel
  induction fuel with
  | zero =>
      intro flag k locks st j r e _ hmem
      simp [loopFrom] at hmem
  | succ n ihn =>
      intro flag k locks st j r e hflag hmem
      subst hflag
      cases hEq : flagAt sig k with
      | true => simp [loopFrom, hEq] at hmem
      | false =>
          rw [loopFrom] at hmem
          simp only [hEq, Bool.false_eq_true, if_false, Bool.false_or] at hmem
          by_cases hKI :
              (mainCycle (env k).file (env k).ocr (env k).stopSched (env k).batchExc
                locks st).2 = some PyExc.keyboardInterrupt
          · rw [if_pos hKI] at hmem
            have hj : j = k := by
              simpa using congrArg Prod.fst (List.mem_singleton.mp hmem)
            rw [hj]
            exact hEq
          · rw [if_neg hKI] at hmem
            rcases List.mem_cons.mp hmem with hhd | htl
            · have hj : j = k := by simpa using congrArg Prod.fst hhd
              rw [hj]
              exact hEq
            · exact ihn (sig k) (k + 1) _ _ j r e (by simp [flagAt, hEq]) htl

/-- The exception that leaves one iteration is either nothing or exactly
the exception raised inside the protected region. -/
lemma mainCycle_exc_cases (file : SettingsFile) (ocr : FileName → OcrOracle)
    (stop : Nat → Bool) (batchExc : Option PyExc) (locks : LockWorld)
    (st : FolderSet) :
    (mainCycle file ocr stop batchExc locks st).2 = none
    ∨ (mainCycle file ocr stop batchExc locks st).2 = batchExc := by
  rcases batchExc with _ | e
  · left
    rw [mainCycle]
    split
    · rfl
    split
    · rfl
    split
    · rfl
    split
    · rfl
    rfl
  · rw [mainCycle]
    split
    · exact Or.inl rfl
    split
    · exact Or.inl rfl
    split
    · exact Or.inl rfl
    split
    · exact Or.inl rfl
    exact Or.inr rfl

/-- As long as no iteration raises `KeyboardInterrupt`, every iteration
index reached before the shutdown flag is set appears, completed, in the
loop trace: a signal arriving during an iteration does not cut that
iteration short, it only stops later ones from starting. -/
lemma loopFrom_complete (env : Nat → LoopEnv) (sig : Nat → Bool)
    (hKI : ∀ j, (env j).batchExc ≠ some PyExc.keyboardInterrupt) :
    ∀ (fuel k : Nat) (locks : LockWorld) (st : FolderSet) (j : Nat),
      k ≤ j → j < k + fuel → flagAt sig j = false →
      ∃ r e, (j, r, e) ∈ loopFrom env sig (flagAt sig k) k locks st fuel := by
  intro fuel
  induction fuel with
  | zero =>
      intro k locks st j hkj hlt _
      omega
  | succ n ihn =>
      intro k locks st j hkj hlt hjf
      cases hEq : flagAt sig k with
      | true => exact absurd (flagAt_mono sig k j hkj hEq) (by simp [hjf])
      | false =>
          have hstep :
              (mainCycle (env k).file (env k).ocr (env k).stopSched (env k).batchExc
                  locks st).2 ≠ some PyExc.keyboardInterrupt := by
            rcases mainCycle_exc_cases (env k).file (env k).ocr (env k).stopSched
                (env k).batchExc locks st with h | h
            · simp [h]
            · rw [h]; exact hKI k
          rcases Nat.eq_or_lt_of_le hkj with hEq2 | hlt2
          · subst hEq2
            refine ⟨(mainCycle (env k).file (env k).ocr (env k).stopSched
                (env k).batchExc locks st).1,
              (mainCycle (env k).file (env k).ocr (env k).stopSched
                (env k).batchExc locks st).2, ?_⟩
            rw [loopFrom]
            simp only [hEq, Bool.false_eq_true, if_false, if_neg hstep]
            exact List.mem_cons_self _ _
          · have hflag' : flagAt sig (k + 1) = sig k := by simp [flagAt, hEq]
            obtain ⟨r, e, hm⟩ :=
              ihn (k + 1)
                (mainCycle (env k).file (env k).ocr (env k).stopSched (env k).batchExc
                  locks st).1.locks
                (mainCycle (env k).file (env k).ocr (env k).stopSched (env k).batchExc
                  locks st).1.folders
                j hlt2 (by omega) hjf
            refine ⟨r, e, ?_⟩
            rw [loopFrom]
            simp only [hEq, Bool.false_eq_true, if_false, if_neg hstep, Bool.false_or]
            rw [hflag'] at hm
            exact List.mem_cons_of_mem _ hm

/-- C6: a shutdown signal never interrupts an in-flight batch: the signal
handler only sets the shutdown flag (locks and folders untouched), the
flag is monotone, no iteration starts once the flag is set, and — absent a
`KeyboardInterrupt` — every iteration reached before the flag is set runs
to completion and is recorded, even the iteration during which the signal
arrives; the loop thus exits only at an iteration boundary after the
current batch has drained. -/
theorem shutdown_signal_drains_batch (env : Nat → LoopEnv) (sig : Nat → Bool)
    (locks : LockWorld) (st : FolderSet) (fuel : Nat) :
    (∀ g : WorkerGlobals,
        signal_handler g
          = { shutdownRequested := true, locks := g.locks, folders := g.folders })
    ∧ (∀ k j, k ≤ j → flagAt sig k = true → flagAt sig j = true)
    ∧ (∀ j r e, (j, r, e) ∈ loopFrom env sig false 0 locks st fuel →
        flagAt sig j = false)
    ∧ ((∀ j, (env j).batchExc ≠ some PyExc.keyboardInterrupt) →
        ∀ j, j < fuel → flagAt sig j = false →
          ∃ r e, (j, r, e) ∈ loopFrom env sig false 0 locks st fuel) := by
  refine ⟨fun g => rfl, flagAt_mono sig, ?_, ?_⟩
  · intro j r e hmem
    exact loopFrom_mem_flag env sig fuel false 0 locks st j r e rfl hmem
  · intro hKI j hj hjf
    exact loopFrom_complete env sig hKI fuel 0 locks st j (Nat.zero_le j)
      (by omega) hjf

/-- C6 witness: with a signal arriving during iteration 0, iteration 0
still completes and is recorded in the trace. -/
theorem shutdown_signal_drains_batch_witness :
    ∃ r e, (0, r, e) ∈ loopFrom (fun _ => idleEnv) sigAt0 false 0
        ⟨false, false⟩ oneFileState 2 :=
  (shutdown_signal_drains_batch (fun _ => idleEnv) sigAt0 ⟨false, false⟩
      oneFileState 2).2.2.2
    (fun j h => by simp [idleEnv] at h) 0 (by decide) (by decide)

/-- C7 counterexample: an iteration that raises `KeyboardInterrupt` is
caught, but the loop breaks instead of sleeping and continuing — with
three iterations of fuel and the shutdown flag never set, only iteration 0
appears in the trace, refuting the claim that every caught exception lets
the loop continue. -/
theorem loop_breaks_on_keyboard_interrupt :
    ((loopFrom (fun _ => kiEnv) (fun _ => false) false 0 ⟨false, false⟩
        oneFileState 3).map (fun t => t.1) = [0])
    ∧ (mainCycle kiEnv.file kiEnv.ocr kiEnv.stopSched kiEnv.batchExc
        ⟨false, false⟩ oneFileState).2 = some PyExc.keyboardInterrupt
    ∧ flagAt (fun _ => false) 1 = false := by
  decide

/-- C7 amended: every exception other than `KeyboardInterrupt` raised
inside an iteration is caught at the top of the scheduler loop, after
which the loop sleeps and continues with the next iteration; a
`KeyboardInterrupt` is caught and breaks the loop deliberately. -/
theorem loop_continues_after_exception (env : Nat → LoopEnv) (sig : Nat → Bool)
    (k : Nat) (locks : LockWorld) (st : FolderSet) (fuel : Nat) (m : String)
    (h : (mainCycle (env k).file (env k).ocr (env k).stopSched (env k).batchExc
            locks st).2 = some (PyExc.exception m)) :
    loopFrom env sig false k locks st (fuel + 1)
      = (k,
          (mainCycle (env k).file (env k).ocr (env k).stopSched (env k).batchExc
            locks st).1,
          some (PyExc.exception m))
        :: loopFrom env sig (sig k) (k + 1)
            (mainCycle (env k).file (env k).ocr (env k).stopSched (env k).batchExc
              locks st).1.locks
            (mainCycle (env k).file (env k).ocr (env k).stopSched (env k).batchExc
              locks st).1.folders fuel := by
  rw [loopFrom]
  simp [h]

/-- C7 amended witness: after a generic exception in iteration 0 the loop
continues and iteration 1 runs, giving a two-entry trace. -/
theorem loop_continues_after_exception_witness :
    (loopFrom (fun _ => excEnv) (fun _ => false) false 0 ⟨false, false⟩
        oneFileState 2).length = 2 := by
  rw [show (2 : Nat) = 1 + 1 from rfl]
  rw [loop_continues_after_exception (fun _ => excEnv) (fun _ => false) 0
      ⟨false, false⟩ oneFileState 1 "boom" (by decide)]
  decide

end PDF24OCR
